import Mathlib

/-!
# go-qrcode REST adapter (`qrcode-restapi/main.go`)

A shallow embedding of `ParseHexColor` and `getQRCode`.

* Go strings are byte sequences (`GoString`), integers of fixed width are
  naturals reduced modulo `2 ^ w` where the source can wrap.
* `ParseHexColor` calls `fmt.Sscanf`; the part of the Go scanner that the two
  format strings `"%02x%02x%02x"` and `"%1x%1x%1x"` exercise (`doScanf`,
  `SkipSpace`, `scanUint`, `scanNumber`, `strconv.ParseUint`) is embedded
  function by function.
* `getQRCode` talks to three collaborators that are not part of this
  repository: the gin context, the QR library and the Unicode case tables.
  The QR library and the non-ASCII half of `strings.ToUpper`/`ToLower` are
  parameters of the model.
-/

namespace QRCodeRestAPI

/-! ## Strings, errors, colours -/

/-- A Go string: an immutable sequence of bytes, each a natural number below 256. -/
abbrev GoString := List Nat

/-- The UTF-8 bytes of a string literal, used to write Go string constants. -/
def str (s : String) : GoString :=
  (s.data.flatMap String.utf8EncodeChar).map UInt8.toNat

/-- A Go `error` value: `none` is `nil`, `some msg` an error with message `msg`. -/
abbrev GoError := Option String

/-- The struct `color.RGBA`: four `uint8` channels. -/
structure RGBA where
  R : Nat
  G : Nat
  B : Nat
  A : Nat
  deriving DecidableEq, Repr

/-! ## UTF-8 decoding (`unicode/utf8`) -/

/-- The constant `utf8.RuneError`. -/
def RuneError : Nat := 0xFFFD

/-- The width announced by a leading byte between 0xC2 and 0xF4 (the low bits of `first`). -/
def runeSize (p0 : Nat) : Nat := if p0 < 0xE0 then 2 else if p0 < 0xF0 then 3 else 4

/-- The lowest second byte accepted after the leading byte `p0` (`acceptRanges`). -/
def acceptLo (p0 : Nat) : Nat := if p0 = 0xE0 then 0xA0 else if p0 = 0xF0 then 0x90 else 0x80

/-- The highest second byte accepted after the leading byte `p0` (`acceptRanges`). -/
def acceptHi (p0 : Nat) : Nat := if p0 = 0xED then 0x9F else if p0 = 0xF4 then 0x8F else 0xBF

/-- The function `utf8.DecodeRune`: the first rune of `p` and its width in bytes, with the
`first` and `acceptRanges` tables written out as comparisons. -/
def DecodeRune (p : GoString) : Nat × Nat :=
  match p with
  | [] => (RuneError, 0)
  | p0 :: rest =>
    if p0 < 0x80 then (p0, 1)
    else if p0 < 0xC2 ∨ 0xF5 ≤ p0 then (RuneError, 1)
    else if rest.length + 1 < runeSize p0 then (RuneError, 1)
    else if rest.getD 0 0 < acceptLo p0 ∨ acceptHi p0 < rest.getD 0 0 then (RuneError, 1)
    else if runeSize p0 ≤ 2 then ((p0 % 0x20) * 0x40 + rest.getD 0 0 % 0x40, 2)
    else if rest.getD 1 0 < 0x80 ∨ 0xBF < rest.getD 1 0 then (RuneError, 1)
    else if runeSize p0 ≤ 3 then
      ((p0 % 0x10) * 0x1000 + (rest.getD 0 0 % 0x40) * 0x40 + rest.getD 1 0 % 0x40, 3)
    else if rest.getD 2 0 < 0x80 ∨ 0xBF < rest.getD 2 0 then (RuneError, 1)
    else
      ((p0 % 0x08) * 0x40000 + (rest.getD 0 0 % 0x40) * 0x1000 + (rest.getD 1 0 % 0x40) * 0x40 +
        rest.getD 2 0 % 0x40, 4)

/-- The runes that successive `ReadRune` calls deliver for the bytes `p`; `skip` counts the
bytes of the rune just decoded that are still to be stepped over. -/
def runesFrom : Nat → GoString → List Nat
  | _, [] => []
  | skip + 1, _ :: tl => runesFrom skip tl
  | 0, b :: tl => (DecodeRune (b :: tl)).1 :: runesFrom ((DecodeRune (b :: tl)).2 - 1) tl

/-- The rune stream of a string reader positioned at the start of `s`. -/
def runes (s : GoString) : List Nat := runesFrom 0 s

/-! ## The scanner (`fmt/scan.go`) -/

/-- The constant `hugeWid`. -/
def hugeWid : Nat := 1 <<< 30

/-- The constant `hexadecimalDigits`, "0123456789aAbBcCdDeEfF", as runes. -/
def hexadecimalDigits : List Nat :=
  [0x30, 0x31, 0x32, 0x33, 0x34, 0x35, 0x36, 0x37, 0x38, 0x39,
   0x61, 0x41, 0x62, 0x42, 0x63, 0x43, 0x64, 0x44, 0x65, 0x45, 0x66, 0x46]

/-- The table `space` of `fmt/scan.go`. -/
def space : List (Nat × Nat) :=
  [(0x0009, 0x000d), (0x0020, 0x0020), (0x0085, 0x0085), (0x00a0, 0x00a0),
   (0x1680, 0x1680), (0x2000, 0x200a), (0x2028, 0x2029), (0x202f, 0x202f),
   (0x205f, 0x205f), (0x3000, 0x3000)]

/-- The loop of `isSpace` over the (sorted) range table. -/
def isSpaceIn : List (Nat × Nat) → Nat → Bool
  | [], _ => false
  | (lo, hi) :: rest, rx =>
    if rx < lo then false
    else if rx ≤ hi then true
    else isSpaceIn rest rx

/-- The function `isSpace`. -/
def isSpace (r : Nat) : Bool :=
  if r ≥ 1 <<< 16 then false else isSpaceIn space r

/-- The scan state `ss`. `rs` is the rune stream still to be read, `buf` the token buffer,
`count` the runes consumed so far and `argLimit` the bound on `count` for the current verb.
The flag `atEOF` is not kept: it is set only when `rs` is exhausted, and an exhausted stream
reports end of input on every later read anyway. For `Sscanf` both `nlIsSpace` and `nlIsEnd`
are false. -/
structure ss where
  rs : List Nat
  buf : List Nat
  count : Nat
  argLimit : Nat
  deriving DecidableEq, Repr

/-- The method `ss.ReadRune`, with `none` for `io.EOF`. -/
def ss.ReadRune (s : ss) : Option (Nat × ss) :=
  if s.count ≥ s.argLimit then none
  else
    match s.rs with
    | [] => none
    | r :: rest => some (r, { s with rs := rest, count := s.count + 1 })

/-- The method `ss.peek` for a one-rune set: is the next readable rune `ok`? The state is
unchanged, because the rune read is unread again. -/
def ss.peek (s : ss) (ok : Nat) : Bool :=
  match s.ReadRune with
  | none => false
  | some (r, _) => r == ok

/-- The loop of `ss.SkipSpace` on the components of the state: the runes left, and `count`. -/
def skipSpaceLoop (argLimit : Nat) : List Nat → Nat → Except String (List Nat × Nat)
  | [], count => .ok ([], count)
  | r :: rest, count =>
    if count ≥ argLimit then .ok (r :: rest, count)
    else if r = 0x0D ∧ (ss.peek ⟨rest, [], count + 1, argLimit⟩ 0x0A) = true then
      skipSpaceLoop argLimit rest (count + 1)
    else if r = 0x0A then .error "unexpected newline"
    else if isSpace r = false then .ok (r :: rest, count)
    else skipSpaceLoop argLimit rest (count + 1)

/-- The method `ss.SkipSpace`. -/
def ss.SkipSpace (s : ss) : Except String ss :=
  match skipSpaceLoop s.argLimit s.rs s.count with
  | .error e => .error e
  | .ok (rs, count) => .ok { s with rs := rs, count := count }

/-- The method `ss.notEOF`: panics with `io.EOF` when nothing can be read. -/
def ss.notEOF (s : ss) : Except String ss :=
  match s.ReadRune with
  | none => .error "EOF"
  | some _ => .ok s

/-- The method `ss.accept`, i.e. `consume(ok, true)`: read a rune, keep it in `buf` when it
belongs to `ok`, unread it otherwise. -/
def ss.accept (s : ss) (ok : List Nat) : Bool × ss :=
  match s.ReadRune with
  | none => (false, s)
  | some (r, s1) => if ok.contains r then (true, { s1 with buf := s1.buf ++ [r] }) else (false, s)

/-- The loop `for s.accept(digits) {}` of `scanNumber`, on the components of the state. -/
def acceptLoop (ok : List Nat) (argLimit : Nat) : List Nat → List Nat → Nat → List Nat × List Nat × Nat
  | [], buf, count => ([], buf, count)
  | r :: rest, buf, count =>
    if count ≥ argLimit then (r :: rest, buf, count)
    else if ok.contains r then acceptLoop ok argLimit rest (buf ++ [r]) (count + 1)
    else (r :: rest, buf, count)

/-- The method `ss.scanNumber` (called with `haveDigits = false`): the token and the state. -/
def ss.scanNumber (s : ss) (digits : List Nat) : Except String (List Nat × ss) :=
  match s.notEOF with
  | .error e => .error e
  | .ok s =>
    match s.accept digits with
    | (false, _) => .error "expected integer"
    | (true, s) =>
      match acceptLoop digits s.argLimit s.rs s.buf s.count with
      | (rs, buf, count) => .ok (buf, { s with rs := rs, buf := buf, count := count })

/-! ## Unsigned parsing (`strconv/atoi.go`) -/

/-- The errors of `strconv`: `ErrSyntax`, `ErrRange` and the bit-size error. -/
inductive NumErr where
  | ErrSyntax
  | ErrRange
  | ErrBitSize
  deriving DecidableEq, Repr

/-- The constant `strconv.IntSize` on the 64-bit targets. -/
def IntSize : Nat := 64

/-- The constant `maxUint64`. -/
def maxUint64 : Nat := 2 ^ 64 - 1

/-- The helper `lower`: `c | ('x' - 'X')`. -/
def lower (c : Nat) : Nat := c ||| 0x20

/-- The digit loop of `ParseUint` for an explicit base (no underscores): the accumulator `n`
is a `uint64`. -/
def parseUintLoop (base cutoff maxVal : Nat) : GoString → Nat → Nat × Option NumErr
  | [], n => (n, none)
  | c :: rest, n =>
    if 0x30 ≤ c ∧ c ≤ 0x39 ∨ 0x61 ≤ lower c ∧ lower c ≤ 0x7A then
      let d := if 0x30 ≤ c ∧ c ≤ 0x39 then c - 0x30 else lower c - 0x61 + 10
      if d ≥ base then (0, some .ErrSyntax)
      else if n ≥ cutoff then (maxVal, some .ErrRange)
      else
        let n0 := n * base % 2 ^ 64
        let n1 := (n0 + d) % 2 ^ 64
        if n1 < n0 ∨ n1 > maxVal then (maxVal, some .ErrRange)
        else parseUintLoop base cutoff maxVal rest n1
    else (0, some .ErrSyntax)

/-- The function `strconv.ParseUint` for a base between 2 and 36. -/
def ParseUint (s : GoString) (base bitSize : Nat) : Nat × Option NumErr :=
  if s = [] then (0, some .ErrSyntax)
  else if bitSize > 64 then (0, some .ErrBitSize)
  else
    let bitSize := if bitSize = 0 then IntSize else bitSize
    let cutoff := maxUint64 / base + 1
    let maxVal := 2 ^ bitSize - 1
    parseUintLoop base cutoff maxVal s 0

/-! ## Scanning a `%x` verb into a `uint8` -/

/-- The method `ss.scanUint` for the verb `x` (`getBase` gives base 16 and the digit set
`hexadecimalDigits`): the scanned value and the state. -/
def ss.scanUint (s : ss) (bitSize : Nat) : Except String (Nat × ss) :=
  match s.SkipSpace with
  | .error e => .error e
  | .ok s =>
    match s.notEOF with
    | .error e => .error e
    | .ok s =>
      match s.scanNumber hexadecimalDigits with
      | .error e => .error e
      | .ok (tok, s) =>
        match ParseUint tok 16 64 with
        | (_, some _) => .error "strconv.ParseUint: parsing failed"
        | (i, none) =>
          let x := (i * 2 ^ (64 - bitSize) % 2 ^ 64) / 2 ^ (64 - bitSize)
          if x ≠ i then .error "unsigned integer overflow on token"
          else .ok (x, s)

/-- The loop of `ss.doScanf` for a format that is a run of `%<width>x` verbs, given by their
widths, with `*uint8` operands given as the stores into the colour they point into. -/
def doScanf : List Nat → List (RGBA → Nat → RGBA) → ss → RGBA → RGBA × GoError
  | [], [], _, c => (c, none)
  | [], _ :: _, _, c => (c, some "too many operands")
  | maxWid :: format, a, s, c =>
    match s.SkipSpace with
    | .error e => (c, some e)
    | .ok s =>
      let s := { s with argLimit := if s.count + maxWid < hugeWid then s.count + maxWid else hugeWid }
      match a with
      | [] => (c, some "too few operands for format")
      | arg :: a =>
        match ({ s with buf := [] }).scanUint 8 with
        | .error e => (c, some e)
        | .ok (v, s) => doScanf format a { s with argLimit := hugeWid } (arg c v)

/-- The call `fmt.Sscanf(s, format, &c.R, &c.G, &c.B)`: the colour after the stores that were
made, and the error. -/
def Sscanf (s : GoString) (format : List Nat) (c : RGBA) : RGBA × GoError :=
  doScanf format
    [fun c v => { c with R := v }, fun c v => { c with G := v }, fun c v => { c with B := v }]
    ⟨runes s, [], 0, hugeWid⟩ c

/-! ## `ParseHexColor` -/

/-- The function `ParseHexColor` of `main.go`. The format `"%02x%02x%02x"` is three verbs of
width 2 and `"%1x%1x%1x"` three verbs of width 1; `c.R *= 17` is a `uint8` product. -/
def ParseHexColor (s : GoString) : RGBA × GoError :=
  let c : RGBA := { R := 0, G := 0, B := 0, A := 0xff }
  if s.length = 6 then
    Sscanf s [2, 2, 2] c
  else if s.length = 3 then
    match Sscanf s [1, 1, 1] c with
    | (c, err) =>
      ({ c with R := c.R * 17 % 256, G := c.G * 17 % 256, B := c.B * 17 % 256 }, err)
  else
    (c, some "invalid length, must be 7 or 4")

/-! ## `strconv.Atoi` -/

/-- Conversion of an integer to `int64`, wrapping. -/
def toInt64 (x : Int) : Int := (x + 2 ^ 63) % 2 ^ 64 - 2 ^ 63

/-- The function `strconv.ParseInt` for an explicit base. -/
def ParseInt (s : GoString) (base bitSize : Nat) : Int × Option NumErr :=
  match s with
  | [] => (0, some .ErrSyntax)
  | c :: rest =>
    let neg : Bool := c == 0x2D
    let s1 := if c = 0x2B ∨ c = 0x2D then rest else c :: rest
    match ParseUint s1 base bitSize with
    | (_, some .ErrSyntax) => (0, some .ErrSyntax)
    | (_, some .ErrBitSize) => (0, some .ErrBitSize)
    | (un, _) =>
      let bitSize := if bitSize = 0 then IntSize else bitSize
      let cutoff : Nat := 2 ^ (bitSize - 1)
      if neg = false ∧ un ≥ cutoff then (((cutoff - 1 : Nat) : Int), some .ErrRange)
      else if neg = true ∧ un > cutoff then (-(cutoff : Int), some .ErrRange)
      else
        let n := toInt64 un
        (if neg then toInt64 (-n) else n, none)

/-- The digit loop of the fast path of `Atoi`; `ch -= '0'` is a byte subtraction. -/
def atoiLoop : GoString → Int → Option Int
  | [], n => some n
  | ch :: rest, n =>
    let d := (ch + 256 - 0x30) % 256
    if d > 9 then none else atoiLoop rest (n * 10 + d)

/-- The function `strconv.Atoi`; the result is already an `int` on a 64-bit target. -/
def Atoi (s : GoString) : Int × Option NumErr :=
  let sLen := s.length
  if IntSize = 32 ∧ (0 < sLen ∧ sLen < 10) ∨ IntSize = 64 ∧ (0 < sLen ∧ sLen < 19) then
    match s with
    | [] => (0, some .ErrSyntax)
    | c :: rest =>
      let s1 := if c = 0x2D ∨ c = 0x2B then rest else c :: rest
      if s1.length < 1 then (0, some .ErrSyntax)
      else
        match atoiLoop s1 0 with
        | none => (0, some .ErrSyntax)
        | some n => (if c = 0x2D then -n else n, none)
  else ParseInt s 10 0

/-! ## `strings.ToUpper`, `strings.ToLower`, `strings.Compare` -/

/-- The function `strings.ToUpper`. For a string of ASCII bytes the result is computed here;
otherwise the source returns `Map(unicode.ToUpper, s)`, which is the parameter `mapUpper`. -/
def ToUpper (mapUpper : GoString → GoString) (s : GoString) : GoString :=
  let isASCII := s.all fun c => decide (c < 0x80)
  let hasLower := s.any fun c => decide (0x61 ≤ c ∧ c ≤ 0x7A)
  if isASCII then
    if !hasLower then s
    else s.map fun c => if 0x61 ≤ c ∧ c ≤ 0x7A then c - 0x20 else c
  else mapUpper s

/-- The function `strings.ToLower`, with `Map(unicode.ToLower, s)` as the parameter
`mapLower`. -/
def ToLower (mapLower : GoString → GoString) (s : GoString) : GoString :=
  let isASCII := s.all fun c => decide (c < 0x80)
  let hasUpper := s.any fun c => decide (0x41 ≤ c ∧ c ≤ 0x5A)
  if isASCII then
    if !hasUpper then s
    else s.map fun c => if 0x41 ≤ c ∧ c ≤ 0x5A then c + 0x20 else c
  else mapLower s

/-- The function `strings.Compare`: the three-way lexicographic comparison of the bytes. -/
def Compare (a b : GoString) : Int :=
  if a = b then 0 else if a < b then -1 else 1

/-! ## The handler `getQRCode` -/

/-- The type `qrcode.RecoveryLevel`. -/
inductive RecoveryLevel where
  | Low
  | Medium
  | High
  | Highest
  deriving DecidableEq, Repr

/-- The struct `qrcode.QRCode` as far as the handler touches it: the two exported colour
fields, and the rest of the symbol as a value of an arbitrary type. -/
structure QRCode (Sym : Type) where
  sym : Sym
  ForegroundColor : RGBA
  BackgroundColor : RGBA

/-- The collaborators outside this repository: the QR library (`New` returns a pointer that
may be nil, each function also returns an error) and the Unicode halves of `ToUpper` and
`ToLower`. -/
structure External (Sym : Type) where
  New : GoString → RecoveryLevel → Option (QRCode Sym) × GoError
  SVG : QRCode Sym → GoString × GoError
  PNG : QRCode Sym → Int → GoString × GoError
  mapUpper : GoString → GoString
  mapLower : GoString → GoString

/-- The values `c.Query` returns for the six keys the handler reads; an absent key reads as
the empty string. -/
structure Request where
  data : GoString
  size : GoString
  ecc : GoString
  color : GoString
  bgcolor : GoString
  format : GoString

/-- What `c.Header` and `c.Data` leave in the response writer. -/
structure Response where
  status : Nat
  contentType : String
  header : List (String × String)
  body : GoString
  deriving DecidableEq

/-- A call into the QR library, with its arguments. -/
inductive LibCall (Sym : Type) where
  | New (content : GoString) (level : RecoveryLevel)
  | SVG (q : QRCode Sym)
  | PNG (q : QRCode Sym) (size : Int)

/-- The outcome of one run of the handler: the library calls in order, and the response; the
response is `none` when the run ends in the nil-pointer panic of `q.ForegroundColor = mycolor`. -/
structure Handled (Sym : Type) where
  calls : List (LibCall Sym)
  response : Option Response

/-- The selection of `recovery_level` from the upper-cased `ecc` (lines 99 and 106 to 122). -/
def recoveryLevel (ecc : GoString) : RecoveryLevel :=
  let recovery_level := RecoveryLevel.Low
  if Compare ecc (str "L") = 0 ∨ Compare ecc (str "M") = 0 ∨
      Compare ecc (str "Q") = 0 ∨ Compare ecc (str "H") = 0 then
    if Compare ecc (str "L") = 0 then RecoveryLevel.Low
    else if Compare ecc (str "M") = 0 then RecoveryLevel.Medium
    else if Compare ecc (str "Q") = 0 then RecoveryLevel.High
    else if Compare ecc (str "H") = 0 then RecoveryLevel.Highest
    else recovery_level
  else recovery_level

/-- The handler `getQRCode`. `checkError` only logs, so the errors it receives do not change
the run. -/
def getQRCode {Sym : Type} (ext : External Sym) (c : Request) : Handled Sym :=
  let data := c.data
  let size := (Atoi c.size).1
  let ecc := ToUpper ext.mapUpper c.ecc
  let color := c.color
  let bgcolor := c.bgcolor
  let format := ToLower ext.mapLower c.format
  let recovery_level := recoveryLevel ecc
  let mycolor := (ParseHexColor color).1
  let mybgcolor := (ParseHexColor bgcolor).1
  match (ext.New data recovery_level).1 with
  | none => { calls := [.New data recovery_level], response := none }
  | some q0 =>
    let q : QRCode Sym := { q0 with ForegroundColor := mycolor, BackgroundColor := mybgcolor }
    if Compare format (str "svg") = 0 then
      let qrSVG := (ext.SVG q).1
      { calls := [.New data recovery_level, .SVG q],
        response := some
          { status := 200, contentType := "application/octet-stream",
            header := [("Content-Disposition", "inline; filename=qrcode.svg")], body := qrSVG } }
    else
      let png := (ext.PNG q size).1
      { calls := [.New data recovery_level, .PNG q size],
        response := some
          { status := 200, contentType := "application/octet-stream",
            header := [("Content-Disposition", "inline; filename=qrcode.png")], body := png } }

/-- A sample library over the trivial symbol type: `New` fails on empty content and otherwise
returns a symbol in the library defaults, black on white; `SVG` and `PNG` return fixed bytes. -/
def sampleExt : External Unit where
  New := fun content _ =>
    if content = [] then (none, some "no data to encode")
    else (some ⟨(), ⟨0, 0, 0, 255⟩, ⟨255, 255, 255, 255⟩⟩, none)
  SVG := fun _ => (str "<svg/>", none)
  PNG := fun _ _ => ([0x89, 0x50, 0x4E, 0x47], none)
  mapUpper := fun s => s
  mapLower := fun s => s

/-! ## Vocabulary of the properties -/

/-- A byte is a hexadecimal digit: one of 0-9, a-f, A-F. -/
def isHexDigit (b : Nat) : Prop :=
  (0x30 ≤ b ∧ b ≤ 0x39) ∨ (0x61 ≤ b ∧ b ≤ 0x66) ∨ (0x41 ≤ b ∧ b ≤ 0x46)

instance : DecidablePred isHexDigit := fun b => by
  unfold isHexDigit
  exact inferInstance

/-- The numeric value, 0 to 15, of a hexadecimal digit. -/
def hexDigitValue (b : Nat) : Nat :=
  if b ≤ 0x39 then b - 0x30 else if 0x61 ≤ b then b - 0x61 + 10 else b - 0x41 + 10

/-- The numeric value of two hexadecimal digits read as a two-digit number. -/
def hexPairValue (a b : Nat) : Nat := 16 * hexDigitValue a + hexDigitValue b

/-- The number of hexadecimal digits among the runes `l`. -/
def hexCount (l : List Nat) : Nat := l.countP fun r => hexadecimalDigits.contains r

/-- The recovery levels of the calls to `qrcode.New` in a run, in order. -/
def Handled.newLevels {Sym : Type} (h : Handled Sym) : List RecoveryLevel :=
  h.calls.filterMap fun
    | .New _ level => some level
    | _ => none

/-- The symbols handed to the serialisers `SVG` and `PNG` in a run, in order. -/
def Handled.serialised {Sym : Type} (h : Handled Sym) : List (QRCode Sym) :=
  h.calls.filterMap fun
    | .New _ _ => none
    | .SVG q => some q
    | .PNG q _ => some q

/-- The sizes handed to the serialiser `PNG` in a run, in order. -/
def Handled.pngSizes {Sym : Type} (h : Handled Sym) : List Int :=
  h.calls.filterMap fun
    | .PNG _ size => some size
    | _ => none

/-! ## Lemmas on the scanner -/

theorem isHexDigit_mem {a : Nat} (h : isHexDigit a) : a ∈ hexadecimalDigits := by
  unfold isHexDigit at h
  simp only [hexadecimalDigits, List.mem_cons, List.mem_singleton, List.mem_nil_iff, or_false]
  omega

theorem hexDigitValue_lt {a : Nat} (h : isHexDigit a) : hexDigitValue a < 16 := by
  unfold isHexDigit at h
  unfold hexDigitValue
  split_ifs <;> omega

theorem isHexDigit_contains {a : Nat} (h : isHexDigit a) : hexadecimalDigits.contains a = true := by
  simpa using isHexDigit_mem h

theorem isHexDigit_isSpace {a : Nat} (h : isHexDigit a) : isSpace a = false := by
  have h := isHexDigit_mem h
  simp only [hexadecimalDigits, List.mem_cons, List.mem_singleton, List.mem_nil_iff, or_false] at h
  rcases h with h | h | h | h | h | h | h | h | h | h | h | h | h | h | h | h | h | h | h | h | h | h <;>
    subst h <;> decide

theorem ParseUint_one {a : Nat} (h : isHexDigit a) :
    ParseUint [a] 16 64 = (hexDigitValue a, none) := by
  have h := isHexDigit_mem h
  simp only [hexadecimalDigits, List.mem_cons, List.mem_singleton, List.mem_nil_iff, or_false] at h
  rcases h with h | h | h | h | h | h | h | h | h | h | h | h | h | h | h | h | h | h | h | h | h | h <;>
    subst h <;> decide

theorem ParseUint_two {a b : Nat} (ha : isHexDigit a) (hb : isHexDigit b) :
    ParseUint [a, b] 16 64 = (hexPairValue a b, none) := by
  have ha := isHexDigit_mem ha
  have hb := isHexDigit_mem hb
  simp only [hexadecimalDigits, List.mem_cons, List.mem_singleton, List.mem_nil_iff, or_false] at ha hb
  rcases ha with h | h | h | h | h | h | h | h | h | h | h | h | h | h | h | h | h | h | h | h | h | h <;>
    subst h <;>
    rcases hb with h | h | h | h | h | h | h | h | h | h | h | h | h | h | h | h | h | h | h | h | h | h <;>
    subst h <;> decide

theorem isHexDigit_lt {a : Nat} (h : isHexDigit a) : a < 0x80 := by
  unfold isHexDigit at h
  omega

theorem skipSpaceLoop_hex {a : Nat} (h : isHexDigit a) (argLimit : Nat) (rest : List Nat)
    (count : Nat) : skipSpaceLoop argLimit (a :: rest) count = .ok (a :: rest, count) := by
  have h1 : a ≠ 0x0D := by unfold isHexDigit at h; omega
  have h2 : a ≠ 0x0A := by unfold isHexDigit at h; omega
  simp [skipSpaceLoop, h1, h2, isHexDigit_isSpace h]

theorem acceptLoop_limit (ok : List Nat) (rs buf : List Nat) (count : Nat) :
    acceptLoop ok count rs buf count = (rs, buf, count) := by
  cases rs <;> simp [acceptLoop]

theorem scanUint_one {a : Nat} (h : isHexDigit a) (rest : List Nat) (count : Nat) :
    ss.scanUint ⟨a :: rest, [], count, count + 1⟩ 8 =
      .ok (hexDigitValue a, ⟨rest, [a], count + 1, count + 1⟩) := by
  have hv := hexDigitValue_lt h
  have key : hexDigitValue a * 72057594037927936 % 18446744073709551616 / 72057594037927936 =
      hexDigitValue a := by omega
  simp only [ss.scanUint, ss.SkipSpace, skipSpaceLoop_hex h, ss.notEOF, ss.ReadRune,
    ss.scanNumber, ss.accept, isHexDigit_contains h, acceptLoop_limit, ParseUint_one h]
  simp [isHexDigit_mem h, acceptLoop_limit, ParseUint_one h, key]

theorem scanUint_two {a b : Nat} (ha : isHexDigit a) (hb : isHexDigit b) (rest : List Nat)
    (count : Nat) :
    ss.scanUint ⟨a :: b :: rest, [], count, count + 2⟩ 8 =
      .ok (hexPairValue a b, ⟨rest, [a, b], count + 2, count + 2⟩) := by
  have hva := hexDigitValue_lt ha
  have hvb := hexDigitValue_lt hb
  have hp : hexPairValue a b < 256 := by unfold hexPairValue; omega
  have key : hexPairValue a b * 72057594037927936 % 18446744073709551616 / 72057594037927936 =
      hexPairValue a b := by omega
  simp only [ss.scanUint, ss.SkipSpace, skipSpaceLoop_hex ha, ss.notEOF, ss.ReadRune,
    ss.scanNumber, ss.accept, isHexDigit_contains ha]
  simp [acceptLoop, isHexDigit_mem ha, isHexDigit_mem hb, acceptLoop_limit, ParseUint_two ha hb, key]


theorem runes_ascii_cons {a : Nat} (h : a < 0x80) (tl : GoString) :
    runesFrom 0 (a :: tl) = a :: runesFrom 0 tl := by
  simp [runesFrom, DecodeRune, h]

theorem runes_ascii : ∀ {s : GoString}, (∀ b ∈ s, b < 0x80) → runes s = s
  | [], _ => rfl
  | a :: tl, h => by
    have ih : runes tl = tl := runes_ascii fun b hb => h b (List.mem_cons_of_mem a hb)
    unfold runes at ih ⊢
    rw [runes_ascii_cons (h a (List.mem_cons_self a tl)), ih]

theorem runes_hex {s : GoString} (h : ∀ b ∈ s, isHexDigit b) : runes s = s :=
  runes_ascii fun b hb => isHexDigit_lt (h b hb)

theorem ParseHexColor_six {a b c d e f : Nat} (ha : isHexDigit a) (hb : isHexDigit b)
    (hc : isHexDigit c) (hd : isHexDigit d) (he : isHexDigit e) (hf : isHexDigit f) :
    ParseHexColor [a, b, c, d, e, f] =
      (⟨hexPairValue a b, hexPairValue c d, hexPairValue e f, 255⟩, none) := by
  have h0 := scanUint_two ha hb [c, d, e, f] 0
  have h2 := scanUint_two hc hd [e, f] 2
  have h4 := scanUint_two he hf [] 4
  have hr : runes [a, b, c, d, e, f] = [a, b, c, d, e, f] :=
    runes_hex (by simp [ha, hb, hc, hd, he, hf])
  simp only [Nat.zero_add, Nat.reduceAdd] at h0 h2 h4
  simp [ParseHexColor, Sscanf, hr, doScanf, ss.SkipSpace,
    skipSpaceLoop_hex ha, skipSpaceLoop_hex hc, skipSpaceLoop_hex he, hugeWid, h0, h2, h4]

theorem ParseHexColor_three {a b c : Nat} (ha : isHexDigit a) (hb : isHexDigit b)
    (hc : isHexDigit c) :
    ParseHexColor [a, b, c] =
      (⟨hexDigitValue a * 17, hexDigitValue b * 17, hexDigitValue c * 17, 255⟩, none) := by
  have h0 := scanUint_one ha [b, c] 0
  have h1 := scanUint_one hb [c] 1
  have h2 := scanUint_one hc [] 2
  have va := hexDigitValue_lt ha
  have vb := hexDigitValue_lt hb
  have vc := hexDigitValue_lt hc
  have hr : runes [a, b, c] = [a, b, c] := runes_hex (by simp [ha, hb, hc])
  simp only [Nat.zero_add, Nat.reduceAdd] at h0 h1 h2
  simp [ParseHexColor, Sscanf, hr, doScanf, ss.SkipSpace,
    skipSpaceLoop_hex ha, skipSpaceLoop_hex hb, skipSpaceLoop_hex hc, hugeWid, h0, h1, h2]
  omega

theorem doScanf_A (format : List Nat) : ∀ (a : List (RGBA → Nat → RGBA)) (s : ss) (c : RGBA),
    (∀ arg ∈ a, ∀ (c : RGBA) (v : Nat), (arg c v).A = c.A) → (doScanf format a s c).1.A = c.A := by
  induction format with
  | nil =>
    intro a s c _
    cases a <;> simp [doScanf]
  | cons maxWid format ih =>
    intro a s c h
    unfold doScanf
    split
    · rfl
    · cases a with
      | nil => rfl
      | cons arg a =>
        simp only
        split
        · rfl
        · rw [ih a _ _ fun x hx => h x (List.mem_cons_of_mem arg hx)]
          exact h arg (List.mem_cons_self arg a) c _

theorem ParseHexColor_A (s : GoString) : (ParseHexColor s).1.A = 255 := by
  have h : ∀ arg ∈ [fun (c : RGBA) (v : Nat) => { c with R := v },
      fun (c : RGBA) (v : Nat) => { c with G := v }, fun (c : RGBA) (v : Nat) => { c with B := v }],
      ∀ (c : RGBA) (v : Nat), (arg c v).A = c.A := by
    intro arg harg c v
    simp only [List.mem_cons, List.mem_singleton, List.mem_nil_iff, or_false] at harg
    rcases harg with h | h | h <;> subst h <;> rfl
  unfold ParseHexColor
  split_ifs
  · exact doScanf_A _ _ _ _ h
  · exact doScanf_A [1, 1, 1] _ _ _ h
  · rfl

theorem ParseHexColor_length {s : GoString} (h3 : s.length ≠ 3) (h6 : s.length ≠ 6) :
    ParseHexColor s = (⟨0, 0, 0, 255⟩, some "invalid length, must be 7 or 4") := by
  simp [ParseHexColor, h3, h6]

/-! ## The three-digit path rejects every string with a byte that is not a digit -/

theorem DecodeRune_ascii_or_high (b : Nat) (tl : GoString) :
    (DecodeRune (b :: tl)).1 = b ∨ 0x80 ≤ (DecodeRune (b :: tl)).1 := by
  unfold DecodeRune
  simp only [RuneError]
  by_cases h0 : b < 0x80
  · left
    rw [if_pos h0]
  · right
    rw [if_neg h0]
    have hsz : runeSize b = 2 ∧ b < 0xE0 ∨ runeSize b = 3 ∧ 0xE0 ≤ b ∧ b < 0xF0 ∨
        runeSize b = 4 ∧ 0xF0 ≤ b := by
      unfold runeSize
      split_ifs <;> omega
    have hlo : 0x80 ≤ acceptLo b ∧ (b = 0xE0 → acceptLo b = 0xA0) ∧
        (b = 0xF0 → acceptLo b = 0x90) := by
      unfold acceptLo
      split_ifs <;> omega
    have hhi : acceptHi b ≤ 0xBF := by
      unfold acceptHi
      split_ifs <;> omega
    generalize runeSize b = sz at hsz ⊢
    generalize acceptLo b = lo at hlo ⊢
    generalize acceptHi b = hi at hhi ⊢
    generalize tl.getD 0 0 = b1
    generalize tl.getD 1 0 = b2
    generalize tl.getD 2 0 = b3
    split_ifs <;> omega


theorem DecodeRune_hex (b : Nat) (tl : GoString)
    (h : hexadecimalDigits.contains (DecodeRune (b :: tl)).1 = true) :
    hexadecimalDigits.contains b = true := by
  rcases DecodeRune_ascii_or_high b tl with h1 | h1
  · rwa [h1] at h
  · exfalso
    have h2 : (DecodeRune (b :: tl)).1 ∈ hexadecimalDigits := by simpa using h
    simp only [hexadecimalDigits, List.mem_cons, List.mem_singleton, List.mem_nil_iff,
      or_false] at h2
    omega

theorem hexCount_cons (r : Nat) (l : List Nat) :
    hexCount (r :: l) = hexCount l + if hexadecimalDigits.contains r = true then 1 else 0 := by
  unfold hexCount
  rw [List.countP_cons]

theorem hexCount_runesFrom : ∀ (s : GoString) (skip : Nat),
    hexCount (runesFrom skip s) ≤ hexCount s
  | [], skip => by simp [runesFrom]
  | b :: tl, 0 => by
    have ih := hexCount_runesFrom tl ((DecodeRune (b :: tl)).2 - 1)
    rw [runesFrom, hexCount_cons, hexCount_cons]
    by_cases h : hexadecimalDigits.contains (DecodeRune (b :: tl)).1 = true
    · rw [if_pos h, if_pos (DecodeRune_hex b tl h)]
      omega
    · rw [if_neg h]
      omega
  | b :: tl, skip + 1 => by
    have ih := hexCount_runesFrom tl skip
    rw [runesFrom, hexCount_cons]
    omega

theorem skipSpaceLoop_hexCount (argLimit : Nat) : ∀ (rs : List Nat) (count : Nat)
    (rs1 : List Nat) (count1 : Nat),
    skipSpaceLoop argLimit rs count = .ok (rs1, count1) → hexCount rs1 ≤ hexCount rs := by
  intro rs
  induction rs with
  | nil =>
    intro count rs1 count1 h
    simp only [skipSpaceLoop, Except.ok.injEq, Prod.mk.injEq] at h
    rw [← h.1]
  | cons r rest ih =>
    intro count rs1 count1 h
    unfold skipSpaceLoop at h
    have hc := hexCount_cons r rest
    split_ifs at h
    · simp only [Except.ok.injEq, Prod.mk.injEq] at h
      rw [← h.1]
    · have := ih _ _ _ h
      omega
    · simp only [Except.ok.injEq, Prod.mk.injEq] at h
      rw [← h.1]
    · have := ih _ _ _ h
      omega

theorem acceptLoop_hexCount (ok : List Nat) (argLimit : Nat) : ∀ (rs buf : List Nat)
    (count : Nat), hexCount (acceptLoop ok argLimit rs buf count).1 ≤ hexCount rs := by
  intro rs
  induction rs with
  | nil => intro buf count; simp [acceptLoop]
  | cons r rest ih =>
    intro buf count
    unfold acceptLoop
    have hc := hexCount_cons r rest
    split_ifs
    · exact le_refl _
    · have := ih (buf ++ [r]) (count + 1)
      omega
    · exact le_refl _


theorem SkipSpace_hexCount (s s1 : ss) (h : s.SkipSpace = .ok s1) :
    hexCount s1.rs ≤ hexCount s.rs ∧ s1.argLimit = s.argLimit := by
  unfold ss.SkipSpace at h
  split at h
  · exact absurd h (by simp)
  · rename_i rs count heq
    simp only [Except.ok.injEq] at h
    rw [← h]
    exact ⟨skipSpaceLoop_hexCount _ _ _ _ _ heq, rfl⟩

theorem scanNumber_hexCount (s s1 : ss) (tok : List Nat)
    (h : s.scanNumber hexadecimalDigits = .ok (tok, s1)) : hexCount s1.rs + 1 ≤ hexCount s.rs := by
  obtain ⟨rs, buf, count, argLimit⟩ := s
  cases rs with
  | nil => simp [ss.scanNumber, ss.notEOF, ss.ReadRune] at h
  | cons r rest =>
    by_cases hl : count ≥ argLimit
    · simp [ss.scanNumber, ss.notEOF, ss.ReadRune, hl] at h
    · by_cases hr : hexadecimalDigits.contains r = true
      · simp only [ss.scanNumber, ss.notEOF, ss.accept, ss.ReadRune, hl, if_false, hr,
          if_true, Except.ok.injEq, Prod.mk.injEq] at h
        have h1 := acceptLoop_hexCount hexadecimalDigits argLimit rest (buf ++ [r]) (count + 1)
        have hc := hexCount_cons r rest
        rw [if_pos hr] at hc
        rw [← h.2]
        show hexCount (acceptLoop hexadecimalDigits argLimit rest (buf ++ [r]) (count + 1)).1 + 1 ≤
          hexCount (r :: rest)
        omega
      · have hr1 : r ∉ hexadecimalDigits := by simpa using hr
        simp [ss.scanNumber, ss.notEOF, ss.accept, ss.ReadRune, hl, hr1] at h

theorem scanUint_hexCount (s s1 : ss) (bitSize v : Nat) (h : s.scanUint bitSize = .ok (v, s1)) :
    hexCount s1.rs + 1 ≤ hexCount s.rs := by
  unfold ss.scanUint at h
  split at h
  · exact absurd h (by simp)
  · rename_i s2 hs2
    have h2 := (SkipSpace_hexCount _ _ hs2).1
    split at h
    · exact absurd h (by simp)
    · rename_i s3 hs3
      have h3 : s3 = s2 := by
        unfold ss.notEOF at hs3
        split at hs3
        · exact absurd hs3 (by simp)
        · simp only [Except.ok.injEq] at hs3
          exact hs3.symm
      subst h3
      split at h
      · exact absurd h (by simp)
      · rename_i tok s4 hs4
        have h4 := scanNumber_hexCount _ _ _ hs4
        split at h
        · exact absurd h (by simp)
        · dsimp only at h
          split_ifs at h
          simp only [Except.ok.injEq, Prod.mk.injEq] at h
          rw [← h.2]
          omega

theorem doScanf_too_few_digits : ∀ (format : List Nat) (a : List (RGBA → Nat → RGBA)) (s : ss)
    (c : RGBA), hexCount s.rs < format.length → (doScanf format a s c).2 ≠ none
  | [], _, _, _, h => by simp at h
  | maxWid :: format, a, s, c, h => by
    unfold doScanf
    split
    · simp
    · rename_i s1 hs1
      have h1 := (SkipSpace_hexCount _ _ hs1).1
      cases a with
      | nil => simp
      | cons arg a =>
        simp only
        split
        · simp
        · rename_i v s2 hs2
          have h2 := scanUint_hexCount _ _ _ _ hs2
          apply doScanf_too_few_digits format
          simp only [List.length_cons] at h
          show hexCount s2.rs < format.length
          have h3 : hexCount s2.rs + 1 ≤ hexCount s1.rs := h2
          omega

/-- Every string of byte length 3 with a byte that is not a hexadecimal digit is rejected:
the path through `"%1x%1x%1x"` needs three digits and finds at most two. -/
theorem ParseHexColor_three_rejects (s : GoString) (hlen : s.length = 3)
    (hbad : ∃ b ∈ s, ¬ isHexDigit b) : (ParseHexColor s).2 ≠ none := by
  have hcount : hexCount (runes s) < 3 := by
    have h1 := hexCount_runesFrom s 0
    have h2 : hexCount s < 3 := by
      obtain ⟨b, hb, hnot⟩ := hbad
      have hnc : ¬ hexadecimalDigits.contains b = true := by
        intro hc
        apply hnot
        have hm : b ∈ hexadecimalDigits := by simpa using hc
        simp only [hexadecimalDigits, List.mem_cons, List.mem_singleton, List.mem_nil_iff,
          or_false] at hm
        unfold isHexDigit
        omega
      have hlt : hexCount s < s.length := by
        have hle : hexCount s ≤ s.length := List.countP_le_length _
        have hne : hexCount s ≠ s.length := fun heq =>
          hnc (List.countP_eq_length.mp heq b hb)
        omega
      omega
    unfold runes
    omega
  unfold ParseHexColor
  rw [if_neg (by omega), if_pos hlen]
  exact doScanf_too_few_digits [1, 1, 1] _ ⟨runes s, [], 0, hugeWid⟩ _ hcount

/-! ## Lemmas on `Atoi` -/

theorem parseUintLoop_noBitSize (base cutoff maxVal : Nat) :
    ∀ (s : GoString) (n : Nat), (parseUintLoop base cutoff maxVal s n).2 ≠ some .ErrBitSize := by
  intro s
  induction s with
  | nil => intro n; simp [parseUintLoop]
  | cons c rest ih =>
    intro n
    unfold parseUintLoop
    dsimp only
    split_ifs <;> first | exact ih _ | simp

theorem ParseUint_noBitSize (s : GoString) : (ParseUint s 10 0).2 ≠ some .ErrBitSize := by
  unfold ParseUint
  split_ifs <;> first | exact parseUintLoop_noBitSize _ _ _ _ _ | omega | simp

theorem ParseInt_cases (s : GoString) :
    ParseInt s 10 0 = (0, some .ErrSyntax) ∨
      ParseInt s 10 0 = (9223372036854775807, some .ErrRange) ∨
      ParseInt s 10 0 = (-9223372036854775808, some .ErrRange) ∨
      (ParseInt s 10 0).2 = none := by
  cases s with
  | nil => left; rfl
  | cons c rest =>
    unfold ParseInt
    simp only
    split
    · left; rfl
    · rename_i h
      exact absurd (congrArg Prod.snd h) (ParseUint_noBitSize _)
    · simp only [IntSize, if_true]
      split_ifs
      · right; left; rfl
      · right; right; left; rfl
      all_goals right; right; right; rfl

theorem Atoi_cases (s : GoString) :
    Atoi s = (0, some .ErrSyntax) ∨ Atoi s = (9223372036854775807, some .ErrRange) ∨
      Atoi s = (-9223372036854775808, some .ErrRange) ∨ (Atoi s).2 = none := by
  unfold Atoi
  simp only
  split_ifs
  · cases s with
    | nil => left; rfl
    | cons c rest =>
      simp only
      split_ifs
      all_goals first | (left; rfl) | (cases atoiLoop _ 0 <;> simp)
  · exact ParseInt_cases s

/-! ## Lemmas on the handler -/

theorem Compare_eq_zero (a b : GoString) : Compare a b = 0 ↔ a = b := by
  unfold Compare
  split_ifs <;> simp [*]

theorem recoveryLevel_eq (ecc : GoString) :
    recoveryLevel ecc =
      if ecc = str "L" then RecoveryLevel.Low
      else if ecc = str "M" then RecoveryLevel.Medium
      else if ecc = str "Q" then RecoveryLevel.High
      else if ecc = str "H" then RecoveryLevel.Highest
      else RecoveryLevel.Low := by
  unfold recoveryLevel
  simp only [Compare_eq_zero]
  split_ifs <;> simp_all

theorem getQRCode_newLevels {Sym : Type} (ext : External Sym) (c : Request) :
    (getQRCode ext c).newLevels = [recoveryLevel (ToUpper ext.mapUpper c.ecc)] := by
  unfold getQRCode
  simp only
  split
  · rfl
  · split_ifs <;> rfl

theorem getQRCode_some {Sym : Type} (ext : External Sym) (c : Request) (q0 : QRCode Sym)
    (hnew : (ext.New c.data (recoveryLevel (ToUpper ext.mapUpper c.ecc))).1 = some q0) :
    getQRCode ext c =
      if ToLower ext.mapLower c.format = str "svg" then
        { calls := [.New c.data (recoveryLevel (ToUpper ext.mapUpper c.ecc)),
            .SVG { q0 with ForegroundColor := (ParseHexColor c.color).1,
                           BackgroundColor := (ParseHexColor c.bgcolor).1 }],
          response := some
            { status := 200, contentType := "application/octet-stream",
              header := [("Content-Disposition", "inline; filename=qrcode.svg")],
              body := (ext.SVG { q0 with ForegroundColor := (ParseHexColor c.color).1,
                                         BackgroundColor := (ParseHexColor c.bgcolor).1 }).1 } }
      else
        { calls := [.New c.data (recoveryLevel (ToUpper ext.mapUpper c.ecc)),
            .PNG { q0 with ForegroundColor := (ParseHexColor c.color).1,
                           BackgroundColor := (ParseHexColor c.bgcolor).1 } (Atoi c.size).1],
          response := some
            { status := 200, contentType := "application/octet-stream",
              header := [("Content-Disposition", "inline; filename=qrcode.png")],
              body := (ext.PNG { q0 with ForegroundColor := (ParseHexColor c.color).1,
                                         BackgroundColor := (ParseHexColor c.bgcolor).1 }
                (Atoi c.size).1).1 } } := by
  unfold getQRCode
  simp only [hnew, Compare_eq_zero]

/-! ## The claims on `ParseHexColor` -/

/-- C1: for every string of exactly six hexadecimal digits, `ParseHexColor` returns a nil error
and the colour whose R, G and B are the values of the first, second and third pair of digits,
with A = 255. -/
theorem C1_six_digits (s : GoString) (hlen : s.length = 6) (hhex : ∀ b ∈ s, isHexDigit b) :
    ParseHexColor s =
      (⟨hexPairValue (s.getD 0 0) (s.getD 1 0), hexPairValue (s.getD 2 0) (s.getD 3 0),
        hexPairValue (s.getD 4 0) (s.getD 5 0), 255⟩, none) := by
  match s, hlen, hhex with
  | [a, b, c, d, e, f], _, hhex =>
    simp only [List.mem_cons, List.mem_singleton, List.mem_nil_iff, or_false,
      forall_eq_or_imp, forall_eq] at hhex
    obtain ⟨ha, hb, hc, hd, he, hf⟩ := hhex
    exact ParseHexColor_six ha hb hc hd he hf

/-- Witness of C1 at "a1B2c3": the colour is (0xa1, 0xb2, 0xc3, 255). -/
theorem C1_six_digits_witness :
    (str "a1B2c3").length = 6 ∧ (∀ b ∈ str "a1B2c3", isHexDigit b) ∧
      ParseHexColor (str "a1B2c3") = (⟨0xa1, 0xb2, 0xc3, 255⟩, none) :=
  ⟨by decide, by decide, C1_six_digits (str "a1B2c3") (by decide) (by decide)⟩

/-- C2: for every string of exactly three hexadecimal digits, `ParseHexColor` returns a nil
error and the colour whose R, G and B are the digit values times 17, a product that stays
below 256, with A = 255; "f00" gives (255, 0, 0, 255). -/
theorem C2_three_digits (s : GoString) (hlen : s.length = 3) (hhex : ∀ b ∈ s, isHexDigit b) :
    ParseHexColor s =
        (⟨hexDigitValue (s.getD 0 0) * 17, hexDigitValue (s.getD 1 0) * 17,
          hexDigitValue (s.getD 2 0) * 17, 255⟩, none) ∧
      hexDigitValue (s.getD 0 0) * 17 < 256 ∧ hexDigitValue (s.getD 1 0) * 17 < 256 ∧
      hexDigitValue (s.getD 2 0) * 17 < 256 ∧
      ParseHexColor (str "f00") = (⟨255, 0, 0, 255⟩, none) := by
  match s, hlen, hhex with
  | [a, b, c], _, hhex =>
    simp only [List.mem_cons, List.mem_singleton, List.mem_nil_iff, or_false,
      forall_eq_or_imp, forall_eq] at hhex
    obtain ⟨ha, hb, hc⟩ := hhex
    have va := hexDigitValue_lt ha
    have vb := hexDigitValue_lt hb
    have vc := hexDigitValue_lt hc
    refine ⟨ParseHexColor_three ha hb hc, ?_, ?_, ?_, by decide⟩
    · show hexDigitValue a * 17 < 256
      omega
    · show hexDigitValue b * 17 < 256
      omega
    · show hexDigitValue c * 17 < 256
      omega

/-- Witness of C2 at "3Fa": the colour is (51, 255, 170, 255). -/
theorem C2_three_digits_witness :
    (str "3Fa").length = 3 ∧ (∀ b ∈ str "3Fa", isHexDigit b) ∧
      ParseHexColor (str "3Fa") = (⟨51, 255, 170, 255⟩, none) :=
  ⟨by decide, by decide, (C2_three_digits (str "3Fa") (by decide) (by decide)).1⟩

/-- C3 at the input "12345z", of byte length 6 with the non-hexadecimal byte 'z': the error
returned is nil and the colour is (0x12, 0x34, 0x05, 255); the same happens for " 1 2 3",
which holds three spaces and parses to (1, 2, 3, 255). -/
theorem C3_trailing_letter_accepted :
    (str "12345z").length = 6 ∧ (∃ b ∈ str "12345z", ¬ isHexDigit b) ∧
      ParseHexColor (str "12345z") = (⟨0x12, 0x34, 0x05, 255⟩, none) ∧
      (str " 1 2 3").length = 6 ∧ (∃ b ∈ str " 1 2 3", ¬ isHexDigit b) ∧
      ParseHexColor (str " 1 2 3") = (⟨1, 2, 3, 255⟩, none) := by
  decide

/-- C4: for every string whose byte length is neither 3 nor 6, `ParseHexColor` returns a
non-nil error. -/
theorem C4_other_length (s : GoString) (h3 : s.length ≠ 3) (h6 : s.length ≠ 6) :
    (ParseHexColor s).2 ≠ none := by
  rw [ParseHexColor_length h3 h6]
  simp

/-- Witness of C4 at the empty string and at the seven bytes of "#ff0000". -/
theorem C4_other_length_witness :
    (ParseHexColor []).2 ≠ none ∧ (ParseHexColor (str "#ff0000")).2 ≠ none :=
  ⟨C4_other_length [] (by decide) (by decide),
    C4_other_length (str "#ff0000") (by decide) (by decide)⟩

/-- C5: for every input string, whether parsing succeeds or fails, the colour returned by
`ParseHexColor` has alpha channel 255. -/
theorem C5_alpha_opaque (s : GoString) : (ParseHexColor s).1.A = 255 :=
  ParseHexColor_A s

/-- C10: for all hexadecimal digits a, b, c, `ParseHexColor` returns for the three bytes
"abc" the same colour and the same nil error as for the six bytes "aabbcc". -/
theorem C10_short_form_doubles (a b c : Nat) (ha : isHexDigit a) (hb : isHexDigit b)
    (hc : isHexDigit c) :
    ParseHexColor [a, b, c] = ParseHexColor [a, a, b, b, c, c] ∧
      (ParseHexColor [a, b, c]).2 = none := by
  rw [ParseHexColor_three ha hb hc, ParseHexColor_six ha ha hb hb hc hc]
  refine ⟨?_, rfl⟩
  simp only [hexPairValue]
  congr 2 <;> omega

/-- Witness of C10 at the digits of "f0A": both forms give (255, 0, 170, 255). -/
theorem C10_short_form_doubles_witness :
    ParseHexColor (str "f0A") = ParseHexColor (str "ff00AA") ∧
      (ParseHexColor (str "f0A")).2 = none :=
  C10_short_form_doubles 0x66 0x30 0x41 (by decide) (by decide) (by decide)

/-! ## The claims on `getQRCode` -/

/-- C6: the recovery level passed to `qrcode.New` is Low when the upper-cased `ecc` is "L",
Medium for "M", High for "Q", Highest for "H" and Low for every other value; lower-case
letters select the same level as upper-case ones, and "Z" and the empty string give Low. -/
theorem C6_recovery_level {Sym : Type} (ext : External Sym) (c : Request) :
    (getQRCode ext c).newLevels =
        [if ToUpper ext.mapUpper c.ecc = str "L" then RecoveryLevel.Low
         else if ToUpper ext.mapUpper c.ecc = str "M" then RecoveryLevel.Medium
         else if ToUpper ext.mapUpper c.ecc = str "Q" then RecoveryLevel.High
         else if ToUpper ext.mapUpper c.ecc = str "H" then RecoveryLevel.Highest
         else RecoveryLevel.Low] ∧
      (getQRCode ext { c with ecc := str "q" }).newLevels = [RecoveryLevel.High] ∧
      (getQRCode ext { c with ecc := str "Q" }).newLevels = [RecoveryLevel.High] ∧
      (getQRCode ext { c with ecc := str "l" }).newLevels = [RecoveryLevel.Low] ∧
      (getQRCode ext { c with ecc := str "m" }).newLevels = [RecoveryLevel.Medium] ∧
      (getQRCode ext { c with ecc := str "h" }).newLevels = [RecoveryLevel.Highest] ∧
      (getQRCode ext { c with ecc := str "Z" }).newLevels = [RecoveryLevel.Low] ∧
      (getQRCode ext { c with ecc := [] }).newLevels = [RecoveryLevel.Low] := by
  simp only [getQRCode_newLevels]
  refine ⟨by rw [recoveryLevel_eq], ?_, ?_, ?_, ?_, ?_, ?_, ?_⟩ <;> rfl

/-- C7: when the QR library constructs a symbol, the response has status 200 and content type
application/octet-stream; its Content-Disposition header names qrcode.svg and its body is the
SVG serialisation exactly when the lower-cased `format` is "svg", and otherwise the header
names qrcode.png and the body is the PNG serialisation at the parsed size. -/
theorem C7_response {Sym : Type} (ext : External Sym) (c : Request) (q0 : QRCode Sym)
    (hnew : (ext.New c.data (recoveryLevel (ToUpper ext.mapUpper c.ecc))).1 = some q0) :
    (getQRCode ext c).response =
      some
        (if ToLower ext.mapLower c.format = str "svg" then
          { status := 200, contentType := "application/octet-stream",
            header := [("Content-Disposition", "inline; filename=qrcode.svg")],
            body := (ext.SVG { q0 with ForegroundColor := (ParseHexColor c.color).1,
                                       BackgroundColor := (ParseHexColor c.bgcolor).1 }).1 }
        else
          { status := 200, contentType := "application/octet-stream",
            header := [("Content-Disposition", "inline; filename=qrcode.png")],
            body := (ext.PNG { q0 with ForegroundColor := (ParseHexColor c.color).1,
                                       BackgroundColor := (ParseHexColor c.bgcolor).1 }
              (Atoi c.size).1).1 }) := by
  rw [getQRCode_some ext c q0 hnew]
  split_ifs <;> rfl

/-- Witness of C7 with the sample library: `format=SVG` is answered with the SVG bytes under
the name qrcode.svg, and `format=jpeg` with the PNG bytes under the name qrcode.png. -/
theorem C7_response_witness :
    (getQRCode sampleExt ⟨str "hello", str "200", [], [], [], str "SVG"⟩).response =
        some ⟨200, "application/octet-stream",
          [("Content-Disposition", "inline; filename=qrcode.svg")], str "<svg/>"⟩ ∧
      (getQRCode sampleExt ⟨str "hello", str "200", [], [], [], str "jpeg"⟩).response =
        some ⟨200, "application/octet-stream",
          [("Content-Disposition", "inline; filename=qrcode.png")], [0x89, 0x50, 0x4E, 0x47]⟩ :=
  ⟨C7_response sampleExt ⟨str "hello", str "200", [], [], [], str "SVG"⟩ _ rfl,
    C7_response sampleExt ⟨str "hello", str "200", [], [], [], str "jpeg"⟩ _ rfl⟩

/-- C8 fails as stated: with `color` and `bgcolor` absent the background handed to the
serialiser is opaque black, not white, and with the malformed `color=1zz`, on which
`ParseHexColor` returns an error, the foreground is (17, 0, 0, 255), not black. -/
theorem C8_counterexample :
    ((getQRCode sampleExt ⟨str "hello", [], [], [], [], []⟩).serialised.map
        fun q => q.BackgroundColor) = [⟨0, 0, 0, 255⟩] ∧
      (⟨0, 0, 0, 255⟩ : RGBA) ≠ ⟨255, 255, 255, 255⟩ ∧
      (ParseHexColor (str "1zz")).2 ≠ none ∧
      ((getQRCode sampleExt ⟨str "hello", [], [], str "1zz", [], []⟩).serialised.map
        fun q => q.ForegroundColor) = [⟨17, 0, 0, 255⟩] := by
  decide

/-- C8 as amended: when the library constructs a symbol, the colours assigned to it are
the colours `ParseHexColor` returns for `color` and `bgcolor`, the errors being discarded;
both have alpha 255, and a parameter that is absent or whose byte length is neither 3 nor 6
gives opaque black (0, 0, 0, 255), for the background as for the foreground. -/
theorem C8_colours_assigned {Sym : Type} (ext : External Sym) (c : Request) (q0 : QRCode Sym)
    (hnew : (ext.New c.data (recoveryLevel (ToUpper ext.mapUpper c.ecc))).1 = some q0) :
    (getQRCode ext c).serialised =
        [{ q0 with ForegroundColor := (ParseHexColor c.color).1,
                   BackgroundColor := (ParseHexColor c.bgcolor).1 }] ∧
      (ParseHexColor c.color).1.A = 255 ∧ (ParseHexColor c.bgcolor).1.A = 255 ∧
      (c.color.length ≠ 3 → c.color.length ≠ 6 → (ParseHexColor c.color).1 = ⟨0, 0, 0, 255⟩) ∧
      (c.bgcolor.length ≠ 3 → c.bgcolor.length ≠ 6 →
        (ParseHexColor c.bgcolor).1 = ⟨0, 0, 0, 255⟩) := by
  refine ⟨?_, ParseHexColor_A _, ParseHexColor_A _, ?_, ?_⟩
  · rw [getQRCode_some ext c q0 hnew]
    split_ifs <;> rfl
  · intro h3 h6
    rw [ParseHexColor_length h3 h6]
  · intro h3 h6
    rw [ParseHexColor_length h3 h6]

/-- Witness of C8 as amended, with the sample library and both colours absent: the symbol
serialised is black on black. -/
theorem C8_colours_assigned_witness :
    ((getQRCode sampleExt ⟨str "hello", [], [], [], [], []⟩).serialised.map
        fun q => (q.ForegroundColor, q.BackgroundColor)) =
      [(⟨0, 0, 0, 255⟩, ⟨0, 0, 0, 255⟩)] :=
  congrArg (List.map fun q => (q.ForegroundColor, q.BackgroundColor))
    (C8_colours_assigned sampleExt ⟨str "hello", [], [], [], [], []⟩ _ rfl).1

/-- C9 fails as stated: on `size=9223372036854775808`, a digit string too large for `int`,
`Atoi` returns an error and the size handed to the PNG serialiser is 9223372036854775807,
which is not 0. -/
theorem C9_counterexample :
    (Atoi (str "9223372036854775808")).2 ≠ none ∧
      (getQRCode sampleExt ⟨str "hello", str "9223372036854775808", [], [], [], []⟩).pngSizes =
        [9223372036854775807] ∧
      (9223372036854775807 : Int) ≠ 0 := by
  decide

/-- C9 as amended: every size handed to the PNG serialiser is the value `Atoi` returns for
`size`, and it is handed over whenever the library constructs a symbol and the format is not
svg. When `Atoi` fails, the failure is a syntax error or a range error. After a syntax error
the value is 0 and the run of the handler, library calls and response, is the run for
`size=0`; after a range error the value is the bound 9223372036854775807 or
-9223372036854775808 of `int`, and nothing is said about the response. The empty string is a
syntax error. -/
theorem C9_size_on_failure {Sym : Type} (ext : External Sym) (c : Request)
    (hfail : (Atoi c.size).2 ≠ none) :
    (∀ n ∈ (getQRCode ext c).pngSizes, n = (Atoi c.size).1) ∧
      (∀ q0 : QRCode Sym,
        (ext.New c.data (recoveryLevel (ToUpper ext.mapUpper c.ecc))).1 = some q0 →
        ToLower ext.mapLower c.format ≠ str "svg" →
        (getQRCode ext c).pngSizes = [(Atoi c.size).1]) ∧
      ((Atoi c.size).2 = some NumErr.ErrSyntax ∧ (Atoi c.size).1 = 0 ∧
          getQRCode ext c = getQRCode ext { c with size := str "0" } ∨
        (Atoi c.size).2 = some NumErr.ErrRange ∧
          ((Atoi c.size).1 = 9223372036854775807 ∨ (Atoi c.size).1 = -9223372036854775808)) ∧
      Atoi [] = (0, some NumErr.ErrSyntax) := by
  refine ⟨?_, ?_, ?_, rfl⟩
  · intro n hn
    unfold getQRCode at hn
    simp only at hn
    split at hn
    · simp [Handled.pngSizes] at hn
    · split_ifs at hn
      · simp [Handled.pngSizes] at hn
      · simpa [Handled.pngSizes] using hn
  · intro q0 hnew hfmt
    rw [getQRCode_some ext c q0 hnew, if_neg hfmt]
    rfl
  · rcases Atoi_cases c.size with h | h | h | h
    · left
      have h0 : (Atoi c.size).1 = (Atoi (str "0")).1 := by rw [h]; rfl
      refine ⟨by rw [h], by rw [h], ?_⟩
      unfold getQRCode
      simp only [h0]
    · right
      exact ⟨by rw [h], Or.inl (by rw [h])⟩
    · right
      exact ⟨by rw [h], Or.inr (by rw [h])⟩
    · exact absurd h hfail

/-- Witness of C9 as amended, with the sample library: `size=abc` fails in `Atoi`, the PNG
serialiser receives the value 0 that `Atoi` returned, and the run is the run for `size=0`. -/
theorem C9_size_on_failure_witness :
    (Atoi (str "abc")).2 ≠ none ∧
      (getQRCode sampleExt ⟨str "hello", str "abc", [], [], [], []⟩).pngSizes = [0] ∧
      (getQRCode sampleExt ⟨str "hello", str "abc", [], [], [], []⟩).response =
        (getQRCode sampleExt ⟨str "hello", str "0", [], [], [], []⟩).response :=
  ⟨by decide,
    (C9_size_on_failure sampleExt ⟨str "hello", str "abc", [], [], [], []⟩ (by decide)).2.1
      _ rfl (by decide),
    by decide⟩

end QRCodeRestAPI
